import Mathlib

/-!
Verification of the core of the `mlflow-typescript-examples` repository:
the in-memory chat session store (`chatbot/server/src/session-manager.ts`),
the research agent loop (`agent.ts`: class `OpenAIAgent`) and the HTML text
extraction of the tool layer (`tools.ts`: class `Tools`).

The TypeScript code is embedded shallowly:
* `Date` timestamps become `Nat` milliseconds; every operation that reads the
  clock (`new Date()`) takes the current time `now : Nat` as an argument.
* The JavaScript `Map` of sessions becomes an association list that keeps
  insertion order (`Map` iteration order), with `Map.set` updating an existing
  key in place and appending a fresh key at the end.
* `Math.random`-based id generation becomes an explicit `genId : String`
  argument (the value the generator produced).
* The OpenAI model boundary becomes an oracle `List Msg → Bool → ModelResponse`
  (the `Bool` records whether the tool schema was attached to the call), and
  the two external tool capabilities become an environment of
  `String → Except String String` functions whose `String` results stand for
  the JSON-serialized tool results.
* Thrown/caught JavaScript errors become `Except String`.
* `RunResult.calls` and `LoopState.notified` are ghost instrumentation: they
  record, in order, the model-boundary calls made (with the messages sent and
  whether the tool schema was attached) and the observer callbacks issued;
  the source performs these effects at exactly the corresponding points.
-/

/-! ## Session store (`session-manager.ts`) -/

/-- Role of a stored chat message (source: `ChatMessage.role`). -/
inductive Role where
  | user
  | assistant
  deriving DecidableEq

/-- A stored chat message (source: interface `ChatMessage`). -/
structure ChatMessage where
  role : Role
  content : String
  timestamp : Nat
  deriving DecidableEq

/-- A chat session (source: interface `ChatSession`). -/
structure ChatSession where
  id : String
  messages : List ChatMessage
  createdAt : Nat
  lastActivity : Nat
  deriving DecidableEq

/-- The session map, as an insertion-ordered association list (JS `Map`). -/
abbrev Store := List (String × ChatSession)

/-- Source: `SESSION_EXPIRE_MS = 60 * 60 * 1000`. -/
def SESSION_EXPIRE_MS : Nat := 60 * 60 * 1000

/-- Source: `MAX_SESSIONS = 100`. -/
def MAX_SESSIONS : Nat := 100

/-- Source: `MAX_MESSAGES_PER_SESSION = 100`. -/
def MAX_MESSAGES_PER_SESSION : Nat := 100

/-- `Map.get`: the value stored under a key. -/
def lookupS (id : String) : Store → Option ChatSession
  | [] => none
  | e :: rest => if e.1 = id then some e.2 else lookupS id rest

/-- In-place mutation of the session object stored under `id` (the source
mutates the object held by the map, so its map position is unchanged). -/
def setEntry (id : String) (v : ChatSession) (store : Store) : Store :=
  store.map fun e => if e.1 = id then (id, v) else e

/-- `Map.delete`: remove the entry stored under a key. -/
def eraseS (id : String) (store : Store) : Store :=
  store.filter fun e => decide ¬(e.1 = id)

/-- `Map.set`: update an existing key in place, append a fresh key at the end. -/
def mapSet (id : String) (v : ChatSession) (store : Store) : Store :=
  if (lookupS id store).isSome then setEntry id v store else store ++ [(id, v)]

/-- Source: `ChatSessionManager.isSessionExpired`. -/
def isSessionExpired (now : Nat) (session : ChatSession) : Bool :=
  decide (SESSION_EXPIRE_MS < now - session.lastActivity)

/-- Comparator used by `enforceSessionLimit`: sort by `lastActivity` ascending. -/
def entryLE (a b : String × ChatSession) : Prop :=
  a.2.lastActivity ≤ b.2.lastActivity

instance : DecidableRel entryLE := fun a b =>
  inferInstanceAs (Decidable (a.2.lastActivity ≤ b.2.lastActivity))

instance : IsTotal (String × ChatSession) entryLE :=
  ⟨fun a b => Nat.le_total a.2.lastActivity b.2.lastActivity⟩

instance : IsTrans (String × ChatSession) entryLE :=
  ⟨fun _ _ _ h h2 => Nat.le_trans h h2⟩

/-- Source: `ChatSessionManager.enforceSessionLimit`: when over the cap, sort
the entries by `lastActivity` ascending (JS `Array.prototype.sort` is stable,
as is insertion sort) and delete the first `size - MAX_SESSIONS` ids. -/
def enforceSessionLimit (store : Store) : Store :=
  if store.length ≤ MAX_SESSIONS then store
  else
    store.filter fun e =>
      decide ¬(e.1 ∈ ((List.insertionSort entryLE store).take
        (store.length - MAX_SESSIONS)).map Prod.fst)

/-- Source: `ChatSessionManager.createSession`; `genId` is the string
`generateSessionId()` returned (a `Math.random` draw, not checked for
freshness by the source). -/
def createSession (now : Nat) (genId : String) (store : Store) : String × Store :=
  let session : ChatSession :=
    { id := genId, messages := [], createdAt := now, lastActivity := now }
  (genId, enforceSessionLimit (mapSet genId session store))

/-- Source: `ChatSessionManager.getSession`: absent keys and expired sessions
give `none` (an expired session is deleted by the read that discovers it);
otherwise `lastActivity` is refreshed to `now`. -/
def getSession (now : Nat) (id : String) (store : Store) : Option ChatSession × Store :=
  match lookupS id store with
  | none => (none, store)
  | some session =>
    if isSessionExpired now session then (none, eraseS id store)
    else
      let refreshed := { session with lastActivity := now }
      (some refreshed, setEntry id refreshed store)

/-- Source: `ChatSessionManager.addMessage`: fetch through `getSession`, append
the message, refresh `lastActivity`, and splice off the front of `messages`
when the cap is exceeded. -/
def addMessage (now : Nat) (id : String) (role : Role) (content : String)
    (store : Store) : Bool × Store :=
  match getSession now id store with
  | (none, store1) => (false, store1)
  | (some session, store1) =>
    let s1 := { session with
                messages := session.messages ++ [⟨role, content, now⟩],
                lastActivity := now }
    let s2 :=
      if MAX_MESSAGES_PER_SESSION < s1.messages.length then
        { s1 with
          messages := s1.messages.drop (s1.messages.length - MAX_MESSAGES_PER_SESSION) }
      else s1
    (true, setEntry id s2 store1)

/-- Source: `ChatSessionManager.getMessages`. -/
def getMessages (now : Nat) (id : String) (store : Store) : List ChatMessage × Store :=
  match getSession now id store with
  | (none, store1) => ([], store1)
  | (some session, store1) => (session.messages, store1)

/-- Source: `ChatSessionManager.deleteSession`: `Map.delete` and its return
value (whether the key was present); no expiry check. -/
def deleteSession (id : String) (store : Store) : Bool × Store :=
  ((lookupS id store).isSome, eraseS id store)

/-- Source: `ChatSessionManager.cleanup` (the periodic sweep): delete every
expired session, then enforce the session-count cap. -/
def cleanup (now : Nat) (store : Store) : Store :=
  enforceSessionLimit (store.filter fun e => !isSessionExpired now e.2)

/-! ### Association-list lemmas -/

theorem lookupS_setEntry_self {id : String} {v : ChatSession} :
    ∀ {store : Store} {s : ChatSession}, lookupS id store = some s →
      lookupS id (setEntry id v store) = some v := by
  intro store
  induction store with
  | nil => intro s h; simp [lookupS] at h
  | cons e rest ih =>
    intro s h
    by_cases he : e.1 = id
    · simp [lookupS, setEntry, he]
    · simp [lookupS, setEntry, he] at h ⊢
      exact ih h

theorem lookupS_setEntry_ne {id id' : String} {v : ChatSession} (hne : id' ≠ id) :
    ∀ store : Store, lookupS id' (setEntry id v store) = lookupS id' store := by
  intro store
  induction store with
  | nil => rfl
  | cons e rest ih =>
    by_cases he : e.1 = id
    · have h1 : ¬(id = id') := fun h => hne h.symm
      have h2 : ¬(e.1 = id') := by rw [he]; exact h1
      simp only [setEntry, List.map_cons, if_pos he, lookupS, h1, if_neg h1, if_neg h2]
      simpa only [setEntry] using ih
    · simp only [setEntry, List.map_cons, if_neg he, lookupS]
      by_cases he' : e.1 = id'
      · rw [if_pos he', if_pos he']
      · rw [if_neg he', if_neg he']
        simpa only [setEntry] using ih

theorem lookupS_eraseS_self {id : String} :
    ∀ store : Store, lookupS id (eraseS id store) = none := by
  intro store
  induction store with
  | nil => rfl
  | cons e rest ih =>
    by_cases he : e.1 = id
    · simp only [eraseS, List.filter_cons, he, decide_not, decide_True, Bool.not_true,
        Bool.false_eq_true, if_false]
      simpa only [eraseS, decide_not] using ih
    · simp only [eraseS, List.filter_cons, decide_not]
      have : (decide (e.1 = id)) = false := decide_eq_false he
      rw [this]
      simp only [Bool.not_false, if_true, lookupS, if_neg he]
      simpa only [eraseS, decide_not] using ih

theorem lookupS_eraseS_ne {id id' : String} (hne : id' ≠ id) :
    ∀ store : Store, lookupS id' (eraseS id store) = lookupS id' store := by
  intro store
  induction store with
  | nil => rfl
  | cons e rest ih =>
    by_cases he : e.1 = id
    · have he' : ¬(e.1 = id') := fun h => hne (by rw [← h, he])
      have h1 : ¬(id = id') := fun h => hne h.symm
      simp only [eraseS, List.filter_cons, he, decide_not, decide_True, Bool.not_true,
        Bool.false_eq_true, if_false, lookupS, if_neg he', if_neg h1]
      simpa only [eraseS, decide_not] using ih
    · simp only [eraseS, List.filter_cons, decide_not]
      have : (decide (e.1 = id)) = false := decide_eq_false he
      rw [this]
      simp only [Bool.not_false, if_true, lookupS]
      by_cases he' : e.1 = id'
      · rw [if_pos he', if_pos he']
      · rw [if_neg he', if_neg he']
        simpa only [eraseS, decide_not] using ih

theorem length_setEntry (id : String) (v : ChatSession) (store : Store) :
    (setEntry id v store).length = store.length := by
  simp [setEntry]

theorem length_eraseS_le (id : String) (store : Store) :
    (eraseS id store).length ≤ store.length :=
  List.length_filter_le _ store

/-! ### Claims about the session store (message cap, lazy expiry, delete, frame) -/

/-- C4: a successful `addMessage` appends the new message and keeps exactly the
most recent `MAX_MESSAGES_PER_SESSION` (100) messages in order, trimming from
the oldest end, so the stored message count never exceeds the cap after the
call completes. -/
theorem addMessage_bounds_messages (now : Nat) (id : String) (role : Role)
    (content : String) (store : Store) (s : ChatSession)
    (hs : lookupS id store = some s)
    (hexp : ¬ SESSION_EXPIRE_MS < now - s.lastActivity) :
    (addMessage now id role content store).1 = true ∧
    ∃ s2, lookupS id (addMessage now id role content store).2 = some s2 ∧
      s2.messages =
        (s.messages ++ [(⟨role, content, now⟩ : ChatMessage)]).drop
          ((s.messages ++ [(⟨role, content, now⟩ : ChatMessage)]).length -
            MAX_MESSAGES_PER_SESSION) ∧
      s2.messages.length ≤ MAX_MESSAGES_PER_SESSION := by
  have hb : isSessionExpired now s = false := by
    simp [isSessionExpired, hexp]
  have hget : getSession now id store =
      (some { s with lastActivity := now },
       setEntry id { s with lastActivity := now } store) := by
    simp [getSession, hs, hb]
  have hl1 : lookupS id (setEntry id { s with lastActivity := now } store) =
      some { s with lastActivity := now } := lookupS_setEntry_self hs
  simp only [addMessage, hget]
  refine ⟨trivial, ?_⟩
  by_cases hlen : MAX_MESSAGES_PER_SESSION < s.messages.length + 1
  · refine ⟨_, lookupS_setEntry_self hl1, ?_, ?_⟩
    · simp [hlen]
    · simp [hlen, List.length_drop, List.length_append]
      omega
  · have h0 : s.messages.length + 1 - MAX_MESSAGES_PER_SESSION = 0 := by omega
    refine ⟨_, lookupS_setEntry_self hl1, ?_, ?_⟩
    · simp [hlen, h0]
    · simp [hlen]
      omega

/-- C4 witness: adding a message to a live one-session store succeeds and the
trimmed-messages characterization holds at this concrete input. -/
def sW4 : ChatSession := { id := "a", messages := [], createdAt := 0, lastActivity := 0 }

/-- Concrete store with the single live session `sW4`. -/
def storeW4 : Store := [("a", sW4)]

theorem addMessage_bounds_messages_witness :
    (addMessage 0 "a" Role.user "hi" storeW4).1 = true ∧
    ∃ s2, lookupS "a" (addMessage 0 "a" Role.user "hi" storeW4).2 = some s2 ∧
      s2.messages =
        (sW4.messages ++ [(⟨Role.user, "hi", 0⟩ : ChatMessage)]).drop
          ((sW4.messages ++ [(⟨Role.user, "hi", 0⟩ : ChatMessage)]).length -
            MAX_MESSAGES_PER_SESSION) ∧
      s2.messages.length ≤ MAX_MESSAGES_PER_SESSION :=
  addMessage_bounds_messages 0 "a" Role.user "hi" storeW4 sW4 (by decide) (by decide)

/-- C6: `getSession` checks expiry lazily on read: a session whose
`lastActivity` lies more than the TTL in the past is reported absent and
deleted from the map by the very read, while a non-expired session is returned
with its `lastActivity` refreshed to the current time. -/
theorem getSession_lazy_expiry (now : Nat) (id : String) (store : Store) (s : ChatSession)
    (hs : lookupS id store = some s) :
    (SESSION_EXPIRE_MS < now - s.lastActivity →
      (getSession now id store).1 = none ∧
      lookupS id (getSession now id store).2 = none) ∧
    (¬ SESSION_EXPIRE_MS < now - s.lastActivity →
      (getSession now id store).1 = some { s with lastActivity := now } ∧
      lookupS id (getSession now id store).2 = some { s with lastActivity := now }) := by
  constructor
  · intro h
    have hb : isSessionExpired now s = true := by simp [isSessionExpired, h]
    simp [getSession, hs, hb, lookupS_eraseS_self]
  · intro h
    have hb : isSessionExpired now s = false := by simp [isSessionExpired, h]
    simp [getSession, hs, hb, lookupS_setEntry_self hs]

/-- Session fixture whose `lastActivity` is at time 0. -/
def sW6 : ChatSession := { id := "x", messages := [], createdAt := 0, lastActivity := 0 }

/-- Concrete store with the single session `sW6`. -/
def storeW6 : Store := [("x", sW6)]

/-- C6 witness: at time 4000000 (past the one-hour TTL) the session is absent
and deleted; at time 5 it is returned with `lastActivity` refreshed. -/
theorem getSession_lazy_expiry_witness :
    ((getSession 4000000 "x" storeW6).1 = none ∧
      lookupS "x" (getSession 4000000 "x" storeW6).2 = none) ∧
    ((getSession 5 "x" storeW6).1 = some { sW6 with lastActivity := 5 } ∧
      lookupS "x" (getSession 5 "x" storeW6).2 = some { sW6 with lastActivity := 5 }) :=
  ⟨(getSession_lazy_expiry 4000000 "x" storeW6 sW6 (by decide)).1 (by decide),
   (getSession_lazy_expiry 5 "x" storeW6 sW6 (by decide)).2 (by decide)⟩

/-- C9: `deleteSession` performs no expiry check: it returns `true` exactly
when the id is currently a key of the map, so on an expired-but-unswept
session it returns `true` even though `getSession` on the same state reports
the session absent. -/
theorem deleteSession_ignores_expiry (now : Nat) (id : String) (store : Store) (s : ChatSession) :
    ((deleteSession id store).1 = true ↔ ∃ s0, lookupS id store = some s0) ∧
    (lookupS id store = some s → SESSION_EXPIRE_MS < now - s.lastActivity →
      (deleteSession id store).1 = true ∧ (getSession now id store).1 = none) := by
  constructor
  · simp [deleteSession, Option.isSome_iff_exists]
  · intro hs h
    have hb : isSessionExpired now s = true := by simp [isSessionExpired, h]
    constructor
    · simp [deleteSession, hs]
    · simp [getSession, hs, hb]

/-- C9 witness: on the concrete store holding only the expired session `sW6`,
`deleteSession` returns `true` while `getSession` reports the session absent. -/
theorem deleteSession_ignores_expiry_witness :
    ((deleteSession "x" storeW6).1 = true ↔ ∃ s0, lookupS "x" storeW6 = some s0) ∧
    ((deleteSession "x" storeW6).1 = true ∧ (getSession 4000000 "x" storeW6).1 = none) :=
  ⟨(deleteSession_ignores_expiry 4000000 "x" storeW6 sW6).1,
   (deleteSession_ignores_expiry 4000000 "x" storeW6 sW6).2 (by decide) (by decide)⟩

/-- C10: frame property: `getSession id` and `addMessage id` leave the entry of
every other id unchanged (they modify or delete at most the session named by
`id` and never evict any other session). -/
theorem store_ops_frame (now : Nat) (id id' : String) (role : Role) (content : String)
    (store : Store) (hne : id' ≠ id) :
    lookupS id' (getSession now id store).2 = lookupS id' store ∧
    lookupS id' (addMessage now id role content store).2 = lookupS id' store := by
  have hget : lookupS id' (getSession now id store).2 = lookupS id' store := by
    rcases h : lookupS id store with _ | s
    · simp [getSession, h]
    · by_cases hb : isSessionExpired now s
      · simp [getSession, h, hb, lookupS_eraseS_ne hne]
      · simp [getSession, h, hb, lookupS_setEntry_ne hne]
  refine ⟨hget, ?_⟩
  rcases hg : getSession now id store with ⟨os, store1⟩
  have h1 : lookupS id' store1 = lookupS id' store := by rw [← hget, hg]
  cases os
  · simp [addMessage, hg, h1]
  · simp [addMessage, hg, lookupS_setEntry_ne hne, h1]

/-- C10 witness: operating on id `"a"` leaves the entry of id `"b"` unchanged
in the concrete one-session store. -/
theorem store_ops_frame_witness :
    lookupS "b" (getSession 0 "a" storeW4).2 = lookupS "b" storeW4 ∧
    lookupS "b" (addMessage 0 "a" Role.user "m" storeW4).2 = lookupS "b" storeW4 :=
  store_ops_frame 0 "a" "b" Role.user "m" storeW4 (by decide)

/-! ### Session id generation (claim about `createSession` freshness) -/

theorem lookupS_mem {id : String} {s : ChatSession} :
    ∀ {store : Store}, lookupS id store = some s → (id, s) ∈ store := by
  intro store
  induction store with
  | nil => intro h; cases h
  | cons e rest ih =>
    intro h
    by_cases he : e.1 = id
    · simp only [lookupS, if_pos he] at h
      have h2 : e.2 = s := Option.some.inj h
      obtain ⟨a, b⟩ := e
      simp only at he h2
      rw [← he, ← h2]
      exact List.mem_cons_self _ _
    · simp only [lookupS, if_neg he] at h
      exact List.mem_cons_of_mem e (ih h)

theorem lookupS_none_forall {id : String} :
    ∀ {store : Store}, lookupS id store = none → ∀ e ∈ store, e.1 ≠ id := by
  intro store
  induction store with
  | nil => intro _ e he; cases he
  | cons e rest ih =>
    intro h f hf
    by_cases he : e.1 = id
    · simp [lookupS, he] at h
    · rcases List.mem_cons.mp hf with rfl | hf
      · exact he
      · exact ih (by simpa [lookupS, he] using h) f hf

theorem mem_enforceSessionLimit_subset {e : String × ChatSession} {store : Store}
    (h : e ∈ enforceSessionLimit store) : e ∈ store := by
  unfold enforceSessionLimit at h
  by_cases hle : store.length ≤ MAX_SESSIONS
  · rwa [if_pos hle] at h
  · rw [if_neg hle] at h
    exact (List.mem_filter.mp h).1

/-- Session fixture with one stored message, for the id-collision scenario. -/
def sIdW : ChatSession :=
  { id := "abc", messages := [{ role := Role.user, content := "hello", timestamp := 0 }],
    createdAt := 0, lastActivity := 0 }

/-- Concrete store holding `sIdW` under the key `"abc"`. -/
def storeIdW : Store := [("abc", sIdW)]

/-- C7 counterexample: `generateSessionId` is a bare `Math.random` draw with no
uniqueness check, so when the drawn string (here `"abc"`) already names a live
session, `createSession` returns an identifier that is NOT distinct from the
identifier of an existing session, and `Map.set` silently replaces that
session (its stored message is lost). -/
theorem createSession_collision :
    lookupS "abc" storeIdW = some sIdW ∧
    sIdW.messages ≠ [] ∧
    (createSession 5 "abc" storeIdW).1 = "abc" ∧
    lookupS "abc" (createSession 5 "abc" storeIdW).2 =
      some { id := "abc", messages := [], createdAt := 5, lastActivity := 5 } := by
  refine ⟨by decide, by decide, rfl, by decide⟩

/-- C7 (amended): `createSession` returns exactly the identifier the generator
produced and, whenever that identifier survives into the store, the session
stored under it has an empty message sequence; the returned identifier is
distinct from the identifiers already in the store only under the hypothesis
that the random generator did not repeat a live key (the source checks
nothing). -/
theorem createSession_fresh_id (now : Nat) (genId : String) (store : Store)
    (hfresh : lookupS genId store = none) :
    (createSession now genId store).1 = genId ∧
    (∀ id0 s0, lookupS id0 store = some s0 → id0 ≠ genId) ∧
    (∀ s, lookupS genId (createSession now genId store).2 = some s → s.messages = []) := by
  refine ⟨rfl, ?_, ?_⟩
  · intro id0 s0 h heq
    rw [heq, hfresh] at h
    cases h
  · intro s h
    have hmem2 : (genId, s) ∈ mapSet genId
        { id := genId, messages := [], createdAt := now, lastActivity := now } store :=
      mem_enforceSessionLimit_subset (lookupS_mem h)
    rw [mapSet, hfresh] at hmem2
    simp only [Option.isSome_none, Bool.false_eq_true, if_false] at hmem2
    rcases List.mem_append.mp hmem2 with hin | hnew
    · exact absurd rfl (lookupS_none_forall hfresh _ hin)
    · have h2 := List.mem_singleton.mp hnew
      have h3 : s = { id := genId, messages := [], createdAt := now, lastActivity := now } :=
        congrArg Prod.snd h2
      rw [h3]

/-- C7 witness for the amended claim: creating a session under the fresh id
`"zzz"` in the concrete one-session store returns `"zzz"`, which differs from
the stored id `"abc"`, and the session stored under `"zzz"` is empty. -/
theorem createSession_fresh_id_witness :
    (createSession 7 "zzz" storeIdW).1 = "zzz" ∧
    ("abc" : String) ≠ "zzz" ∧
    ({ id := "zzz", messages := [], createdAt := 7, lastActivity := 7 } : ChatSession).messages
      = [] :=
  ⟨(createSession_fresh_id 7 "zzz" storeIdW (by decide)).1,
   (createSession_fresh_id 7 "zzz" storeIdW (by decide)).2.1 "abc" sIdW (by decide),
   (createSession_fresh_id 7 "zzz" storeIdW (by decide)).2.2 _ (by decide)⟩

/-! ### Session-count cap and LRU eviction -/

theorem sorted_keys_nodup (store : Store) (hnd : (store.map Prod.fst).Nodup) :
    ((List.insertionSort entryLE store).map Prod.fst).Nodup :=
  (((List.perm_insertionSort entryLE store).map Prod.fst).nodup_iff).mpr hnd

theorem sorted_drop_key_not_in_take (store : Store) (k : Nat)
    (hnd : (store.map Prod.fst).Nodup) {a : String × ChatSession}
    (ha : a ∈ (List.insertionSort entryLE store).drop k) :
    a.1 ∉ ((List.insertionSort entryLE store).take k).map Prod.fst := by
  intro hmem
  have hndA : (((List.insertionSort entryLE store).take k).map Prod.fst ++
      ((List.insertionSort entryLE store).drop k).map Prod.fst).Nodup := by
    rw [← List.map_append, List.take_append_drop]
    exact sorted_keys_nodup store hnd
  exact (List.nodup_append.mp hndA).2.2 hmem (List.mem_map_of_mem Prod.fst ha)

theorem enforceSessionLimit_length_le (store : Store)
    (hnd : (store.map Prod.fst).Nodup) :
    (enforceSessionLimit store).length ≤ MAX_SESSIONS := by
  unfold enforceSessionLimit
  by_cases hle : store.length ≤ MAX_SESSIONS
  · rwa [if_pos hle]
  · rw [if_neg hle]
    push_neg at hle
    set sorted := List.insertionSort entryLE store with hsorted
    set k := store.length - MAX_SESSIONS with hk
    set p : String × ChatSession → Bool :=
      fun e => decide ¬(e.1 ∈ (sorted.take k).map Prod.fst) with hp
    have hperm : List.Perm sorted store := List.perm_insertionSort entryLE store
    have htake : (sorted.take k).filter p = [] := by
      apply List.filter_eq_nil_iff.mpr
      intro a ha
      have hm := List.mem_map_of_mem Prod.fst ha
      simp only [hp, decide_not, Bool.not_eq_eq_eq_not, Bool.not_true, decide_eq_false_iff_not,
        Decidable.not_not]
      exact hm
    have hdrop : (sorted.drop k).filter p = sorted.drop k := by
      apply List.filter_eq_self.mpr
      intro a ha
      have hnot := sorted_drop_key_not_in_take store k hnd ha
      simp only [hp, decide_not, Bool.not_eq_true', decide_eq_false_iff_not]
      exact hnot
    calc (store.filter p).length
        = (sorted.filter p).length := ((hperm.filter p).length_eq).symm
      _ = ((sorted.take k ++ sorted.drop k).filter p).length := by
          rw [List.take_append_drop]
      _ = ((sorted.take k).filter p ++ (sorted.drop k).filter p).length := by
          rw [List.filter_append]
      _ = (sorted.drop k).length := by rw [htake, hdrop]; simp
      _ = sorted.length - k := by rw [List.length_drop]
      _ ≤ MAX_SESSIONS := by rw [hperm.length_eq]; omega

theorem enforceSessionLimit_evicts_lru (store : Store)
    (hnd : (store.map Prod.fst).Nodup) (e e' : String × ChatSession)
    (he : e ∈ store) (hrem : e ∉ enforceSessionLimit store)
    (hkept : e' ∈ enforceSessionLimit store) :
    e.2.lastActivity ≤ e'.2.lastActivity := by
  unfold enforceSessionLimit at hrem hkept
  by_cases hle : store.length ≤ MAX_SESSIONS
  · rw [if_pos hle] at hrem
    exact absurd he hrem
  · rw [if_neg hle] at hrem hkept
    set sorted := List.insertionSort entryLE store with hsorted
    set k := store.length - MAX_SESSIONS with hk
    set p : String × ChatSession → Bool :=
      fun x => decide ¬(x.1 ∈ (sorted.take k).map Prod.fst) with hp
    have hperm : List.Perm sorted store := List.perm_insertionSort entryLE store
    have hpe : ¬(p e = true) := fun hp' => hrem (List.mem_filter.mpr ⟨he, hp'⟩)
    have heK : e.1 ∈ (sorted.take k).map Prod.fst := by
      by_contra hc
      exact hpe (by simp only [hp, decide_not]; simpa using hc)
    have hkf := List.mem_filter.mp hkept
    have he'K : e'.1 ∉ (sorted.take k).map Prod.fst := by
      have h2 := hkf.2
      simp only [hp, decide_not, Bool.not_eq_true', decide_eq_false_iff_not] at h2
      exact h2
    have heS : e ∈ sorted := hperm.mem_iff.mpr he
    have he'S : e' ∈ sorted := hperm.mem_iff.mpr hkf.1
    have heSplit : e ∈ sorted.take k ++ sorted.drop k := by
      rw [List.take_append_drop k sorted]
      exact heS
    have he'Split : e' ∈ sorted.take k ++ sorted.drop k := by
      rw [List.take_append_drop k sorted]
      exact he'S
    have heTake : e ∈ sorted.take k := by
      rcases List.mem_append.mp heSplit with h1 | h1
      · exact h1
      · exact absurd heK (sorted_drop_key_not_in_take store k hnd h1)
    have he'Drop : e' ∈ sorted.drop k := by
      rcases List.mem_append.mp he'Split with h1 | h1
      · exact absurd (List.mem_map_of_mem Prod.fst h1) he'K
      · exact h1
    have hsorted2 : List.Pairwise entryLE (sorted.take k ++ sorted.drop k) := by
      rw [List.take_append_drop k sorted]
      exact List.sorted_insertionSort entryLE store
    exact (List.pairwise_append.mp hsorted2).2.2 e heTake e' he'Drop

theorem keys_mapSet_nodup (id : String) (v : ChatSession) (store : Store)
    (hnd : (store.map Prod.fst).Nodup) : ((mapSet id v store).map Prod.fst).Nodup := by
  rw [mapSet]
  by_cases h : (lookupS id store).isSome = true
  · rw [if_pos h]
    have hkeys : (setEntry id v store).map Prod.fst = store.map Prod.fst := by
      simp only [setEntry, List.map_map]
      apply List.map_congr_left
      intro a _
      by_cases ha1 : a.1 = id
      · simp [Function.comp, ha1]
      · simp [Function.comp, ha1]
    rw [hkeys]
    exact hnd
  · rw [if_neg h]
    rw [List.map_append]
    simp only [List.map_cons, List.map_nil]
    rw [List.nodup_append]
    refine ⟨hnd, List.nodup_singleton id, ?_⟩
    intro a ha hmem
    have haid : a = id := List.mem_singleton.mp hmem
    subst haid
    obtain ⟨e, heM, heq⟩ := List.mem_map.mp ha
    have hnone : lookupS a store = none := by
      cases hl : lookupS a store
      · rfl
      · rw [hl] at h
        simp at h
    exact lookupS_none_forall hnone e heM heq

theorem keys_filter_nodup (p : String × ChatSession → Bool) (store : Store)
    (hnd : (store.map Prod.fst).Nodup) : ((store.filter p).map Prod.fst).Nodup :=
  hnd.sublist ((List.filter_sublist store).map Prod.fst)

theorem getSession_length_le (now : Nat) (id : String) (store : Store) :
    (getSession now id store).2.length ≤ store.length := by
  rcases h : lookupS id store with _ | s
  · simp [getSession, h]
  · by_cases hb : isSessionExpired now s
    · simp only [getSession, h, hb, if_true]
      exact length_eraseS_le id store
    · simp [getSession, h, hb, length_setEntry]

theorem addMessage_length_le (now : Nat) (id : String) (role : Role) (content : String)
    (store : Store) : (addMessage now id role content store).2.length ≤ store.length := by
  have hg0 := getSession_length_le now id store
  rcases hg : getSession now id store with ⟨os, store1⟩
  rw [hg] at hg0
  cases os
  · simpa [addMessage, hg] using hg0
  · simpa [addMessage, hg, length_setEntry] using hg0

/-- C5: the stored session count never exceeds `MAX_SESSIONS` (100) after
`createSession` or the background sweep completes (the remaining operations
never increase the count), and eviction is least-recently-active first: every
entry removed by `enforceSessionLimit` has a `lastActivity` no later than that
of every surviving entry. -/
theorem session_count_invariant (now : Nat) (genId id : String) (role : Role)
    (content : String) (store : Store) (hnd : (store.map Prod.fst).Nodup) :
    (createSession now genId store).2.length ≤ MAX_SESSIONS ∧
    (cleanup now store).length ≤ MAX_SESSIONS ∧
    (getSession now id store).2.length ≤ store.length ∧
    (addMessage now id role content store).2.length ≤ store.length ∧
    (deleteSession id store).2.length ≤ store.length ∧
    (∀ e ∈ store, e ∉ enforceSessionLimit store →
      ∀ e' ∈ enforceSessionLimit store, e.2.lastActivity ≤ e'.2.lastActivity) := by
  refine ⟨?_, ?_, getSession_length_le now id store,
    addMessage_length_le now id role content store, length_eraseS_le id store, ?_⟩
  · exact enforceSessionLimit_length_le _ (keys_mapSet_nodup genId _ store hnd)
  · exact enforceSessionLimit_length_le _ (keys_filter_nodup _ store hnd)
  · intro e he hrem e' hkept
    exact enforceSessionLimit_evicts_lru store hnd e e' he hrem hkept

/-- C5 witness: the cap and monotonicity conclusions at a concrete one-session
store. -/
theorem session_count_invariant_witness :
    (createSession 0 "g" storeW4).2.length ≤ MAX_SESSIONS ∧
    (cleanup 0 storeW4).length ≤ MAX_SESSIONS ∧
    (getSession 0 "a" storeW4).2.length ≤ storeW4.length ∧
    (addMessage 0 "a" Role.user "m" storeW4).2.length ≤ storeW4.length ∧
    (deleteSession "a" storeW4).2.length ≤ storeW4.length :=
  ⟨(session_count_invariant 0 "g" "a" Role.user "m" storeW4 (by decide)).1,
   (session_count_invariant 0 "g" "a" Role.user "m" storeW4 (by decide)).2.1,
   (session_count_invariant 0 "g" "a" Role.user "m" storeW4 (by decide)).2.2.1,
   (session_count_invariant 0 "g" "a" Role.user "m" storeW4 (by decide)).2.2.2.1,
   (session_count_invariant 0 "g" "a" Role.user "m" storeW4 (by decide)).2.2.2.2.1⟩

/-! ## Agent loop (`agent.ts`, class `OpenAIAgent`) -/

/-- Tool-call arguments after `JSON.parse` (the dispatch only ever reads the
`query` and `url` fields of the argument bag). -/
structure ToolArgs where
  query : String := ""
  url : String := ""
  deriving DecidableEq

/-- A tool-call request inside a model response
(`choice.message.tool_calls[i]`, with `function.arguments` already parsed). -/
structure ToolCallReq where
  id : String
  name : String
  arguments : ToolArgs
  deriving DecidableEq

/-- A conversation-buffer message
(`OpenAI.Chat.Completions.ChatCompletionMessageParam`). -/
inductive Msg where
  | system (content : String)
  | user (content : String)
  | assistant (content : Option String) (tool_calls : List ToolCallReq)
  | tool (content : String) (tool_call_id : String)
  deriving DecidableEq

/-- The relevant part of a chat completion (`response.choices[0].message`):
optional text content plus the requested tool calls (`[]` when the field is
absent). -/
structure ModelResponse where
  content : Option String
  tool_calls : List ToolCallReq
  deriving DecidableEq

/-- Source: interface `LLMToolCall` (id, name, arguments, optional result,
optional error). Results are modelled by their JSON-serialized form. -/
structure LLMToolCall where
  id : String
  name : String
  arguments : ToolArgs
  result : Option String := none
  error : Option String := none
  deriving DecidableEq

/-- The two external capabilities of class `Tools`, as an environment: each
call either returns a (serialized) result or fails with an error message. -/
structure ToolEnv where
  searchWeb : String → Except String String
  fetchWebContent : String → Except String String

/-- Source: `OpenAIAgent.executeToolCall`: dispatch on the tool name; the
`default` branch of the switch throws `Unknown tool: <name>`. -/
def OpenAIAgent.executeToolCall (env : ToolEnv) (toolCall : LLMToolCall) :
    Except String String :=
  if toolCall.name = "search_web" then env.searchWeb toolCall.arguments.query
  else if toolCall.name = "fetch_web_content" then env.fetchWebContent toolCall.arguments.url
  else Except.error ("Unknown tool: " ++ toolCall.name)

/-- State threaded through one agent run: the conversation buffer, the
accumulated tool-call record, and ghost instrumentation (`notified` records
the observer callbacks, `calls` the model-boundary calls made so far with the
messages sent and whether the tool schema was attached). -/
structure LoopState where
  messages : List Msg
  toolCalls : List LLMToolCall
  notified : List LLMToolCall
  calls : List (List Msg × Bool)
  deriving DecidableEq

/-- One iteration of the `for` loop in `OpenAIAgent.executeToolCalls`: notify
the observer, dispatch; on success append the serialized result as a tool
message and record the call with its result; on failure append an
`Error: <message>` tool message and record the call with its error. -/
def execOneToolCall (env : ToolEnv) (st : LoopState) (req : ToolCallReq) : LoopState :=
  let mcpToolCall : LLMToolCall := { id := req.id, name := req.name, arguments := req.arguments }
  let st1 := { st with notified := st.notified ++ [mcpToolCall] }
  match OpenAIAgent.executeToolCall env mcpToolCall with
  | Except.ok result =>
    { st1 with
      messages := st1.messages ++ [Msg.tool result req.id],
      toolCalls := st1.toolCalls ++ [{ mcpToolCall with result := some result }] }
  | Except.error e =>
    { st1 with
      messages := st1.messages ++ [Msg.tool ("Error: " ++ e) req.id],
      toolCalls := st1.toolCalls ++ [{ mcpToolCall with error := some e }] }

/-- Source: `OpenAIAgent.executeToolCalls`: sequential dispatch of the
requested tool calls, in the order the model requested them. -/
def OpenAIAgent.executeToolCalls (env : ToolEnv) (reqs : List ToolCallReq)
    (st : LoopState) : LoopState :=
  reqs.foldl (execOneToolCall env) st

/-- Source: `OpenAIAgent.processResponse`: push the assistant message, then
dispatch the requested tool calls and continue (`true`) when there is at
least one, else stop (`false`). -/
def OpenAIAgent.processResponse (env : ToolEnv) (response : ModelResponse)
    (st : LoopState) : Bool × LoopState :=
  let st1 := { st with
               messages := st.messages ++ [Msg.assistant response.content response.tool_calls] }
  if 0 < response.tool_calls.length then
    (true, OpenAIAgent.executeToolCalls env response.tool_calls st1)
  else
    (false, st1)

/-- The model boundary: given the conversation buffer and whether the tool
schema is attached, produce `choices[0].message`. `makeOpenAICall` is
`oracle messages true`; the forced final call is `oracle messages false`. -/
def Oracle := List Msg → Bool → ModelResponse

/-- Source: `const maxIterations = 5`. -/
def maxIterations : Nat := 5

/-- Source: interface `LLMResponse` (the `traceId` of the surrounding span is
not modelled), extended with the ghost `calls`/`notified` trace. -/
structure RunResult where
  content : String
  toolCalls : List LLMToolCall
  reasoning : String
  calls : List (List Msg × Bool)
  notified : List LLMToolCall
  deriving DecidableEq

/-- The user message appended for the forced final call when the iteration
cap is reached (verbatim from the source). -/
def finalSynthesisPrompt : String :=
  "Based on all the research you've conducted, provide a comprehensive final response to the user's query. \n\n    Include:\n    - Key findings from your research\n    - Source citations where appropriate\n    - A clear summary that directly addresses the user's question\n\n    Be thorough but well-organized."

/-- Reasoning string of the in-loop return path (verbatim from the source). -/
def reasoningMsg (nTools iters : Nat) : String :=
  "OpenAI completed research using " ++ toString nTools ++ " tool(s) across " ++
    toString iters ++ " iteration(s) to provide a comprehensive response."

/-- Reasoning string of the forced-final-call path (verbatim from the source). -/
def reasoningMsgFinal (nTools : Nat) : String :=
  "OpenAI completed research using " ++ toString nTools ++ " tool(s) across " ++
    toString maxIterations ++ " iterations to provide a comprehensive response."

/-- The `while (iteration < maxIterations)` loop of `OpenAIAgent.run`,
written with `fuel = maxIterations - iteration` (the iterations left) and
`iteration` the number already performed. When the fuel runs out the source
makes one additional model call without the tool schema, on the conversation
buffer extended with `finalSynthesisPrompt`, and returns its content. -/
def runIter (oracle : Oracle) (env : ToolEnv) : Nat → Nat → LoopState → RunResult
  | 0, _, st =>
    let fmsgs := st.messages ++ [Msg.user finalSynthesisPrompt]
    let response := oracle fmsgs false
    { content := (response.content).getD "",
      toolCalls := st.toolCalls,
      reasoning := reasoningMsgFinal st.toolCalls.length,
      calls := st.calls ++ [(fmsgs, false)],
      notified := st.notified }
  | fuel + 1, iteration, st =>
    let response := oracle st.messages true
    let st1 : LoopState := { st with calls := st.calls ++ [(st.messages, true)] }
    let r := OpenAIAgent.processResponse env response st1
    if r.1 then runIter oracle env fuel (iteration + 1) r.2
    else
      { content := (response.content).getD "",
        toolCalls := r.2.toolCalls,
        reasoning := reasoningMsg r.2.toolCalls.length (iteration + 1),
        calls := r.2.calls,
        notified := r.2.notified }

/-- A history entry pushed into the conversation buffer
(`messages.push({role, content})`). -/
def histMsg (m : ChatMessage) : Msg :=
  match m.role with
  | Role.user => Msg.user m.content
  | Role.assistant => Msg.assistant (some m.content) []

/-- Source: the system prompt of `agent.ts` (verbatim). -/
def SYSTEM_PROMPT : String :=
  "\nYou are a web research assistant with access to real-time web search and content analysis tools.\n\nYour goal is to provide comprehensive, accurate, and up-to-date information by:\n1. Analyzing the user's query to understand what information they need\n2. Using available tools strategically to gather relevant data\n3. Continue using tools iteratively until you have enough information to provide a complete answer\n4. Synthesizing findings into a clear, well-structured response\n\nAvailable tools allow you to:\n- Search the web for current information\n- Fetch and analyze web page content\n- Extract key insights and topics\n\nIMPORTANT: Use tools iteratively! After getting results from one tool, analyze if you need more information and use additional tools as needed. Don't stop after just one tool call - continue researching until you can provide a comprehensive answer.\n\nFORMATTING REQUIREMENTS:\n- For simple responses (greetings, short answers, single facts): Use plain text without markdown formatting\n- For detailed research responses with multiple points: Use proper Markdown syntax including:\n  - Headers (## for main sections, ### for subsections) to organize information\n  - Bullet points (-) or numbered lists (1.) for key findings\n  - **bold** for important terms and *italic* for emphasis\n  - `inline code` for technical terms, URLs, or specific values\n  - Code blocks with ``` for longer code examples or data\n  - > block quotes for direct quotes from sources\n  - Tables when comparing data or presenting structured information\n  - Clickable links [text](URL) when referencing sources\n\nUse markdown formatting only when it improves readability and organization. Always explain your reasoning and cite your sources. Be thorough but well-organized.\n"

/-- The initial conversation buffer of a run: system prompt, chat history,
current user query. -/
def initialMessages (query : String) (chatHistory : List ChatMessage) : List Msg :=
  Msg.system SYSTEM_PROMPT :: (chatHistory.map histMsg ++ [Msg.user query])

/-- Source: `OpenAIAgent.run`. -/
def OpenAIAgent.run (oracle : Oracle) (env : ToolEnv) (query : String)
    (chatHistory : List ChatMessage) : RunResult :=
  runIter oracle env maxIterations 0
    { messages := initialMessages query chatHistory,
      toolCalls := [], notified := [], calls := [] }

/-! ### Agent-loop lemmas -/

theorem execOneToolCall_calls (env : ToolEnv) (st : LoopState) (req : ToolCallReq) :
    (execOneToolCall env st req).calls = st.calls := by
  simp only [execOneToolCall]
  split <;> rfl

theorem execOneToolCall_toolCalls_ext (env : ToolEnv) (st : LoopState) (req : ToolCallReq) :
    ∃ t, (execOneToolCall env st req).toolCalls = st.toolCalls ++ [t] := by
  simp only [execOneToolCall]
  split
  · exact ⟨_, rfl⟩
  · exact ⟨_, rfl⟩

theorem execOneToolCall_messages_ext (env : ToolEnv) (st : LoopState) (req : ToolCallReq) :
    ∃ m, (execOneToolCall env st req).messages = st.messages ++ [m] := by
  simp only [execOneToolCall]
  split
  · exact ⟨_, rfl⟩
  · exact ⟨_, rfl⟩

theorem executeToolCalls_calls (env : ToolEnv) :
    ∀ (reqs : List ToolCallReq) (st : LoopState),
      (OpenAIAgent.executeToolCalls env reqs st).calls = st.calls := by
  intro reqs
  induction reqs with
  | nil => intro st; rfl
  | cons r rest ih =>
    intro st
    show (OpenAIAgent.executeToolCalls env rest (execOneToolCall env st r)).calls = st.calls
    rw [ih, execOneToolCall_calls]

theorem executeToolCalls_toolCalls_length (env : ToolEnv) :
    ∀ (reqs : List ToolCallReq) (st : LoopState),
      (OpenAIAgent.executeToolCalls env reqs st).toolCalls.length =
        st.toolCalls.length + reqs.length := by
  intro reqs
  induction reqs with
  | nil => intro st; rfl
  | cons r rest ih =>
    intro st
    show (OpenAIAgent.executeToolCalls env rest (execOneToolCall env st r)).toolCalls.length = _
    rw [ih]
    obtain ⟨t, ht⟩ := execOneToolCall_toolCalls_ext env st r
    rw [ht]
    simp only [List.length_append, List.length_cons, List.length_nil]
    omega

theorem executeToolCalls_mem_toolCalls (env : ToolEnv) :
    ∀ (reqs : List ToolCallReq) (st : LoopState) (x : LLMToolCall), x ∈ st.toolCalls →
      x ∈ (OpenAIAgent.executeToolCalls env reqs st).toolCalls := by
  intro reqs
  induction reqs with
  | nil => intro st x hx; exact hx
  | cons r rest ih =>
    intro st x hx
    show x ∈ (OpenAIAgent.executeToolCalls env rest (execOneToolCall env st r)).toolCalls
    apply ih
    obtain ⟨t, ht⟩ := execOneToolCall_toolCalls_ext env st r
    rw [ht]
    exact List.mem_append_left _ hx

theorem executeToolCalls_mem_messages (env : ToolEnv) :
    ∀ (reqs : List ToolCallReq) (st : LoopState) (x : Msg), x ∈ st.messages →
      x ∈ (OpenAIAgent.executeToolCalls env reqs st).messages := by
  intro reqs
  induction reqs with
  | nil => intro st x hx; exact hx
  | cons r rest ih =>
    intro st x hx
    show x ∈ (OpenAIAgent.executeToolCalls env rest (execOneToolCall env st r)).messages
    apply ih
    obtain ⟨m, hm⟩ := execOneToolCall_messages_ext env st r
    rw [hm]
    exact List.mem_append_left _ hx

theorem executeToolCalls_failure_recorded (env : ToolEnv) :
    ∀ (reqs : List ToolCallReq) (st : LoopState) (tc : ToolCallReq) (e : String),
      tc ∈ reqs →
      OpenAIAgent.executeToolCall env
        { id := tc.id, name := tc.name, arguments := tc.arguments } = Except.error e →
      ({ id := tc.id, name := tc.name, arguments := tc.arguments,
         result := none, error := some e } : LLMToolCall)
          ∈ (OpenAIAgent.executeToolCalls env reqs st).toolCalls ∧
      Msg.tool ("Error: " ++ e) tc.id ∈ (OpenAIAgent.executeToolCalls env reqs st).messages := by
  intro reqs
  induction reqs with
  | nil => intro st tc e hmem; cases hmem
  | cons r rest ih =>
    intro st tc e hmem hfail
    rcases List.mem_cons.mp hmem with rfl | hmem'
    · constructor
      · show _ ∈ (OpenAIAgent.executeToolCalls env rest (execOneToolCall env st tc)).toolCalls
        apply executeToolCalls_mem_toolCalls
        simp only [execOneToolCall, hfail]
        exact List.mem_append_right _ (List.mem_singleton.mpr rfl)
      · show _ ∈ (OpenAIAgent.executeToolCalls env rest (execOneToolCall env st tc)).messages
        apply executeToolCalls_mem_messages
        simp only [execOneToolCall, hfail]
        exact List.mem_append_right _ (List.mem_singleton.mpr rfl)
    · exact ih (execOneToolCall env st r) tc e hmem' hfail

/-- C3: a tool dispatch that fails (in particular an unknown tool name, which
fails with `Unknown tool: <name>`) never aborts the run: the accumulated
tool-call record gains an entry whose `error` field is set to the failure
message, the conversation buffer gains a tool-role message whose content is
`Error: ` followed by that message, and `processResponse` still reports
`true` so the loop proceeds to the next iteration. -/
theorem tool_failure_is_recorded :
    (∀ (env : ToolEnv) (toolCall : LLMToolCall),
      toolCall.name ≠ "search_web" → toolCall.name ≠ "fetch_web_content" →
      OpenAIAgent.executeToolCall env toolCall =
        Except.error ("Unknown tool: " ++ toolCall.name)) ∧
    (∀ (env : ToolEnv) (response : ModelResponse) (st : LoopState)
        (tc : ToolCallReq) (e : String),
      tc ∈ response.tool_calls →
      OpenAIAgent.executeToolCall env
        { id := tc.id, name := tc.name, arguments := tc.arguments } = Except.error e →
      (OpenAIAgent.processResponse env response st).1 = true ∧
      ({ id := tc.id, name := tc.name, arguments := tc.arguments,
         result := none, error := some e } : LLMToolCall)
        ∈ (OpenAIAgent.processResponse env response st).2.toolCalls ∧
      Msg.tool ("Error: " ++ e) tc.id
        ∈ (OpenAIAgent.processResponse env response st).2.messages) := by
  constructor
  · intro env toolCall h1 h2
    simp [OpenAIAgent.executeToolCall, h1, h2]
  · intro env response st tc e hmem hfail
    have hlen : 0 < response.tool_calls.length :=
      List.length_pos.mpr (List.ne_nil_of_mem hmem)
    have hrec := executeToolCalls_failure_recorded env response.tool_calls
      { st with
        messages := st.messages ++ [Msg.assistant response.content response.tool_calls] }
      tc e hmem hfail
    refine ⟨?_, ?_, ?_⟩
    · simp [OpenAIAgent.processResponse, hlen]
    · simpa [OpenAIAgent.processResponse, hlen] using hrec.1
    · simpa [OpenAIAgent.processResponse, hlen] using hrec.2

/-- Environment in which both capabilities succeed. -/
def envOk : ToolEnv :=
  { searchWeb := fun _ => Except.ok "sr", fetchWebContent := fun _ => Except.ok "fr" }

/-- The unknown-tool request of the spec example. -/
def tcUnknown : ToolCallReq :=
  { id := "call-1", name := "delete_everything", arguments := {} }

/-- A model response requesting only the unknown tool. -/
def respUnknown : ModelResponse := { content := none, tool_calls := [tcUnknown] }

/-- The empty loop state. -/
def stEmpty : LoopState := { messages := [], toolCalls := [], notified := [], calls := [] }

/-- C3 witness: dispatching the unknown tool `delete_everything` fails with
`Unknown tool: delete_everything`, the failed call is recorded with its error
set, the buffer receives the `Error: ...` tool message, and the loop
continues. -/
theorem tool_failure_is_recorded_witness :
    OpenAIAgent.executeToolCall envOk
      { id := tcUnknown.id, name := tcUnknown.name, arguments := tcUnknown.arguments } =
      Except.error ("Unknown tool: " ++ "delete_everything") ∧
    (OpenAIAgent.processResponse envOk respUnknown stEmpty).1 = true ∧
    ({ id := tcUnknown.id, name := tcUnknown.name, arguments := tcUnknown.arguments,
       result := none, error := some ("Unknown tool: " ++ "delete_everything") } : LLMToolCall)
      ∈ (OpenAIAgent.processResponse envOk respUnknown stEmpty).2.toolCalls ∧
    Msg.tool ("Error: " ++ ("Unknown tool: " ++ "delete_everything")) tcUnknown.id
      ∈ (OpenAIAgent.processResponse envOk respUnknown stEmpty).2.messages := by
  have hfail : OpenAIAgent.executeToolCall envOk
      { id := tcUnknown.id, name := tcUnknown.name, arguments := tcUnknown.arguments } =
      Except.error ("Unknown tool: " ++ "delete_everything") := by
    have h1 := tool_failure_is_recorded.1 envOk
      { id := tcUnknown.id, name := tcUnknown.name, arguments := tcUnknown.arguments }
      (by decide) (by decide)
    exact h1
  have h2 := tool_failure_is_recorded.2 envOk respUnknown stEmpty tcUnknown
    ("Unknown tool: " ++ "delete_everything") (by simp [respUnknown]) hfail
  exact ⟨hfail, h2.1, h2.2.1, h2.2.2⟩

theorem runIter_all_tools (oracle : Oracle) (env : ToolEnv)
    (H : ∀ msgs, (oracle msgs true).tool_calls ≠ []) :
    ∀ (fuel iteration : Nat) (st : LoopState),
      ∃ l fm,
        (runIter oracle env fuel iteration st).calls =
          st.calls ++ l ++ [(fm ++ [Msg.user finalSynthesisPrompt], false)] ∧
        l.length = fuel ∧
        (∀ c ∈ l, c.2 = true) ∧
        (runIter oracle env fuel iteration st).content =
          ((oracle (fm ++ [Msg.user finalSynthesisPrompt]) false).content).getD "" ∧
        st.toolCalls.length + fuel ≤ (runIter oracle env fuel iteration st).toolCalls.length := by
  intro fuel
  induction fuel with
  | zero =>
    intro iteration st
    refine ⟨[], st.messages, ?_, rfl, ?_, rfl, ?_⟩
    · simp [runIter]
    · intro c hc
      cases hc
    · simp [runIter]
  | succ fuel ih =>
    intro iteration st
    have hne := H st.messages
    have hlen : 0 < (oracle st.messages true).tool_calls.length :=
      List.length_pos.mpr hne
    have hstep : runIter oracle env (fuel + 1) iteration st =
        runIter oracle env fuel (iteration + 1)
          (OpenAIAgent.executeToolCalls env (oracle st.messages true).tool_calls
            { st with
              messages := st.messages ++
                [Msg.assistant (oracle st.messages true).content
                  (oracle st.messages true).tool_calls],
              calls := st.calls ++ [(st.messages, true)] }) := by
      simp [runIter, OpenAIAgent.processResponse, hlen]
    set st2 : LoopState :=
      OpenAIAgent.executeToolCalls env (oracle st.messages true).tool_calls
        { st with
          messages := st.messages ++
            [Msg.assistant (oracle st.messages true).content
              (oracle st.messages true).tool_calls],
          calls := st.calls ++ [(st.messages, true)] } with hst2
    have hst2calls : st2.calls = st.calls ++ [(st.messages, true)] := by
      rw [hst2, executeToolCalls_calls]
    have hst2len : st2.toolCalls.length =
        st.toolCalls.length + (oracle st.messages true).tool_calls.length := by
      rw [hst2, executeToolCalls_toolCalls_length]
    obtain ⟨l, fm, hcalls, hlenl, halltrue, hcontent, htools⟩ := ih (iteration + 1) st2
    refine ⟨(st.messages, true) :: l, fm, ?_, ?_, ?_, ?_, ?_⟩
    · rw [hstep, hcalls, hst2calls]
      simp
    · simp [hlenl]
    · intro c hc
      rcases List.mem_cons.mp hc with rfl | hc'
      · rfl
      · exact halltrue c hc'
    · rw [hstep]
      exact hcontent
    · rw [hstep]
      have : st.toolCalls.length + (fuel + 1) ≤ st2.toolCalls.length + fuel := by
        rw [hst2len]
        omega
      exact Nat.le_trans this htools

/-- C1: when every tool-schema model response requests at least one tool, the
run performs exactly `maxIterations` (5) tool-dispatch iterations — each of
the first 5 model calls carries the tool schema and dispatches at least one
tool call — then makes exactly one additional forced call without the tool
schema, on the buffer extended with the synthesize-now instruction, for
`maxIterations + 1` (6) model calls in total, and the forced call's content
is returned as the final answer. -/
theorem run_forced_final_after_cap (oracle : Oracle) (env : ToolEnv) (query : String)
    (chatHistory : List ChatMessage)
    (H : ∀ msgs, (oracle msgs true).tool_calls ≠ []) :
    ∃ l fm,
      (OpenAIAgent.run oracle env query chatHistory).calls =
        l ++ [(fm ++ [Msg.user finalSynthesisPrompt], false)] ∧
      l.length = maxIterations ∧
      (∀ c ∈ l, c.2 = true) ∧
      (OpenAIAgent.run oracle env query chatHistory).calls.length = maxIterations + 1 ∧
      (OpenAIAgent.run oracle env query chatHistory).content =
        ((oracle (fm ++ [Msg.user finalSynthesisPrompt]) false).content).getD "" ∧
      maxIterations ≤ (OpenAIAgent.run oracle env query chatHistory).toolCalls.length := by
  obtain ⟨l, fm, hcalls, hlenl, htrue, hcontent, htools⟩ :=
    runIter_all_tools oracle env H maxIterations 0
      { messages := initialMessages query chatHistory,
        toolCalls := [], notified := [], calls := [] }
  refine ⟨l, fm, ?_, hlenl, htrue, ?_, hcontent, ?_⟩
  · simpa [OpenAIAgent.run] using hcalls
  · have h2 : (OpenAIAgent.run oracle env query chatHistory).calls =
        l ++ [(fm ++ [Msg.user finalSynthesisPrompt], false)] := by
      simpa [OpenAIAgent.run] using hcalls
    rw [h2]
    simp [hlenl]
  · simpa [OpenAIAgent.run] using htools

/-- Oracle that always requests one `search_web` tool call. -/
def oracleAllTools : Oracle := fun _ _ =>
  { content := some "final answer",
    tool_calls := [{ id := "t1", name := "search_web", arguments := {} }] }

/-- C1 witness: with the always-requesting oracle, the run makes exactly
`maxIterations + 1` model calls and dispatched at least `maxIterations` tool
calls. -/
theorem run_forced_final_after_cap_witness :
    (OpenAIAgent.run oracleAllTools envOk "q" []).calls.length = maxIterations + 1 ∧
    maxIterations ≤ (OpenAIAgent.run oracleAllTools envOk "q" []).toolCalls.length := by
  obtain ⟨l, fm, h1, h2, h3, h4, h5, h6⟩ :=
    run_forced_final_after_cap oracleAllTools envOk "q" []
      (fun msgs => by simp [oracleAllTools])
  exact ⟨h4, h6⟩

theorem runIter_stop (oracle : Oracle) (env : ToolEnv) (fuel iteration : Nat) (st : LoopState)
    (H : (oracle st.messages true).tool_calls = []) :
    runIter oracle env (fuel + 1) iteration st =
      { content := ((oracle st.messages true).content).getD "",
        toolCalls := st.toolCalls,
        reasoning := reasoningMsg st.toolCalls.length (iteration + 1),
        calls := st.calls ++ [(st.messages, true)],
        notified := st.notified } := by
  simp [runIter, OpenAIAgent.processResponse, H]

/-- C2: when the first model response contains zero tool-call requests, the
run terminates after exactly one model call, returns that response's textual
content, and its accumulated tool-call record is empty. -/
theorem run_single_iteration (oracle : Oracle) (env : ToolEnv) (query : String)
    (chatHistory : List ChatMessage)
    (H : (oracle (initialMessages query chatHistory) true).tool_calls = []) :
    (OpenAIAgent.run oracle env query chatHistory).calls.length = 1 ∧
    (OpenAIAgent.run oracle env query chatHistory).content =
      ((oracle (initialMessages query chatHistory) true).content).getD "" ∧
    (OpenAIAgent.run oracle env query chatHistory).toolCalls = [] := by
  have h5 : maxIterations = 4 + 1 := rfl
  have hs := runIter_stop oracle env 4 0
    { messages := initialMessages query chatHistory,
      toolCalls := [], notified := [], calls := [] } H
  simp only [OpenAIAgent.run, h5]
  rw [hs]
  simp

/-- Oracle that never requests a tool. -/
def oracleNoTools : Oracle := fun _ _ =>
  { content := some "hello there", tool_calls := [] }

/-- C2 witness: with the no-tool oracle, the run makes exactly one model call,
returns that response's content, and records no tool calls. -/
theorem run_single_iteration_witness :
    (OpenAIAgent.run oracleNoTools envOk "hi" []).calls.length = 1 ∧
    (OpenAIAgent.run oracleNoTools envOk "hi" []).content =
      ((oracleNoTools (initialMessages "hi" []) true).content).getD "" ∧
    (OpenAIAgent.run oracleNoTools envOk "hi" []).toolCalls = [] :=
  run_single_iteration oracleNoTools envOk "hi" [] rfl

/-! ## HTML text extraction (`tools.ts`, class `Tools`) -/

/-- The JavaScript regex character class `\s` (whitespace). -/
def isJsWhitespace (c : Char) : Bool :=
  c = ' ' || c = '\t' || c = '\n' || c = '\x0b' || c = '\x0c' || c = '\r' ||
  c = ' ' || c = ' ' || (0x2000 ≤ c.val && c.val ≤ 0x200A) ||
  c = ' ' || c = ' ' || c = ' ' || c = ' ' || c = '　' ||
  c = '﻿'

/-- Case-insensitive matching of a pattern against the head of a character
list (the `i` regex flag, over the ASCII tag names involved). -/
def isPrefixCI : List Char → List Char → Bool
  | [], _ => true
  | _ :: _, [] => false
  | p :: ps, c :: cs => (p.toLower = c.toLower) && isPrefixCI ps cs

/-- Split at the first `>`: the characters before it (matched by `[^>]*`) and
the suffix after it; `none` when there is no `>`. -/
def splitAtGt : List Char → Option (List Char × List Char)
  | [] => none
  | c :: rest =>
    if c = '>' then some ([], rest)
    else
      match splitAtGt rest with
      | none => none
      | some (a, b) => some (c :: a, b)

theorem splitAtGt_length : ∀ {s a b : List Char},
    splitAtGt s = some (a, b) → b.length < s.length := by
  intro s
  induction s with
  | nil => intro a b h; cases h
  | cons c rest ih =>
    intro a b h
    simp only [splitAtGt] at h
    by_cases hc : c = '>'
    · rw [if_pos hc] at h
      injection h with h2
      have hb : rest = b := congrArg Prod.snd h2
      rw [← hb]
      simp
    · rw [if_neg hc] at h
      rcases hsp : splitAtGt rest with _ | ⟨a', b'⟩
      · rw [hsp] at h
        cases h
      · rw [hsp] at h
        injection h with h2
        have hb : b' = b := congrArg Prod.snd h2
        have hlt := ih hsp
        rw [hb] at hlt
        simp only [List.length_cons]
        omega

/-- The suffix right after the first case-insensitive occurrence of `pat`
(the `[\s\S]*?pat` lazy search); `none` when `pat` does not occur. -/
def dropThroughCI (pat : List Char) : List Char → Option (List Char)
  | [] => if pat.isEmpty then some [] else none
  | c :: rest =>
    if isPrefixCI pat (c :: rest) then some ((c :: rest).drop pat.length)
    else dropThroughCI pat rest

theorem dropThroughCI_length {pat : List Char} : ∀ {s t : List Char},
    dropThroughCI pat s = some t → t.length ≤ s.length := by
  intro s
  induction s with
  | nil =>
    intro t h
    simp only [dropThroughCI] at h
    split at h
    · injection h with h2
      rw [← h2]
    · cases h
  | cons c rest ih =>
    intro t h
    simp only [dropThroughCI] at h
    split at h
    · injection h with h2
      rw [← h2]
      simp only [List.length_drop]
      exact Nat.sub_le _ _
    · exact Nat.le_trans (ih h) (by simp)

/-- A match of the regex `<tag[^>]*>[\s\S]*?</tag>` (flags `gi`) anchored at
the head of `s`: `some` of the suffix after the match when it matches — the
opening `<tag`, everything up to the first `>`, then lazily up to the first
`</tag>` — else `none`. -/
def blockMatchEnd (tag : List Char) (s : List Char) : Option (List Char) :=
  if isPrefixCI ('<' :: tag) s then
    match splitAtGt (s.drop (tag.length + 1)) with
    | none => none
    | some (_, afterGt) => dropThroughCI ('<' :: '/' :: (tag ++ ['>'])) afterGt
  else none

theorem blockMatchEnd_length {tag s t : List Char} (h : blockMatchEnd tag s = some t) :
    t.length < s.length := by
  simp only [blockMatchEnd] at h
  split at h
  · rcases hsp : splitAtGt (s.drop (tag.length + 1)) with _ | ⟨a, b⟩
    · rw [hsp] at h
      cases h
    · rw [hsp] at h
      have hbs := splitAtGt_length hsp
      have htb := dropThroughCI_length h
      rw [List.length_drop] at hbs
      omega
  · cases h

/-- Global replacement of `<tag[^>]*>[\s\S]*?</tag>` (flags `gi`) by the
empty string: scan left to right, removing each match. -/
def stripBlocksCI (tag : List Char) (s : List Char) : List Char :=
  match h : blockMatchEnd tag s with
  | some t => stripBlocksCI tag t
  | none =>
    match s with
    | [] => []
    | c :: rest => c :: stripBlocksCI tag rest
termination_by s.length
decreasing_by
  · exact blockMatchEnd_length h
  · simp

/-- Global replacement of `<[^>]*>` by a single space: at each `<` that has a
later `>`, replace the tag by `' '` and continue after the `>`. -/
def stripTags (s : List Char) : List Char :=
  match s with
  | [] => []
  | c :: rest =>
    if c = '<' then
      match hsp : splitAtGt rest with
      | some (_, afterGt) => ' ' :: stripTags afterGt
      | none => c :: stripTags rest
    else c :: stripTags rest
termination_by s.length
decreasing_by
  · have := splitAtGt_length hsp
    simp only [List.length_cons]
    omega
  · simp
  · simp

/-- Global replacement of `\s+` by a single space: every maximal whitespace
run becomes one `' '`. -/
def wsCollapse : List Char → List Char
  | [] => []
  | [c] => if isJsWhitespace c then [' '] else [c]
  | a :: b :: rest =>
    if isJsWhitespace a && isJsWhitespace b then wsCollapse (b :: rest)
    else (if isJsWhitespace a then ' ' else a) :: wsCollapse (b :: rest)

/-- `String.prototype.trim`: drop whitespace from both ends. -/
def trimJs (s : List Char) : List Char :=
  ((s.dropWhile isJsWhitespace).reverse.dropWhile isJsWhitespace).reverse

/-- The pre-truncation pipeline of `Tools.extractTextFromHTML`: strip script
blocks, strip style blocks, strip the remaining tags to spaces, collapse
whitespace, trim. -/
def cleanedText (html : String) : String :=
  String.mk (trimJs (wsCollapse (stripTags
    (stripBlocksCI "style".toList (stripBlocksCI "script".toList html.toList)))))

/-- Source: `Tools.extractTextFromHTML`: the cleaned text, truncated to its
first 10000 characters plus the marker `...` when longer than 10000. -/
def Tools.extractTextFromHTML (html : String) : String :=
  let text := cleanedText html
  if text.length > 10000 then String.mk (text.toList.take 10000) ++ "..." else text

/-- C8: the extraction output never exceeds 10003 characters: when the
cleaned text (script/style blocks removed, tags replaced by spaces,
whitespace collapsed and trimmed) exceeds 10000 characters the result is its
first 10000 characters followed by `...`, and otherwise it is the cleaned
text itself. -/
theorem extractTextFromHTML_spec (html : String) :
    (Tools.extractTextFromHTML html).length ≤ 10003 ∧
    (10000 < (cleanedText html).length →
      Tools.extractTextFromHTML html =
        String.mk ((cleanedText html).toList.take 10000) ++ "...") ∧
    ((cleanedText html).length ≤ 10000 →
      Tools.extractTextFromHTML html = cleanedText html) := by
  unfold Tools.extractTextFromHTML
  by_cases h : (cleanedText html).length > 10000
  · rw [if_pos h]
    refine ⟨?_, fun _ => rfl, fun h2 => absurd h (by omega)⟩
    rw [String.length_append]
    have h1 : (String.mk ((cleanedText html).toList.take 10000)).length ≤ 10000 := by
      show ((cleanedText html).toList.take 10000).length ≤ 10000
      simp [List.length_take]
    have h3 : ("..." : String).length = 3 := rfl
    omega
  · rw [if_neg h]
    refine ⟨by omega, fun h2 => absurd h2 h, fun _ => rfl⟩

theorem stripBlocksCI_nil (tag : List Char) : stripBlocksCI tag [] = [] := by
  have h : blockMatchEnd tag [] = none := by
    simp [blockMatchEnd, isPrefixCI]
  rw [stripBlocksCI]
  split
  · next t heq =>
      rw [h] at heq
      cases heq
  · rfl

theorem stripTags_nil : stripTags [] = [] := by
  rw [stripTags]

theorem cleanedText_empty : cleanedText "" = "" := by
  have h1 : ("" : String).toList = [] := rfl
  rw [cleanedText, h1, stripBlocksCI_nil, stripBlocksCI_nil, stripTags_nil]
  rfl

/-- C8 witness: on the empty input the cleaned text is within the budget and
is returned unchanged, and the length bound holds. -/
theorem extractTextFromHTML_spec_witness :
    (Tools.extractTextFromHTML "").length ≤ 10003 ∧
    Tools.extractTextFromHTML "" = cleanedText "" := by
  have h := extractTextFromHTML_spec ""
  refine ⟨h.1, h.2.2 ?_⟩
  rw [cleanedText_empty]
  decide
